import Mathlib

/-!
Verification of the hemovita marker-classification / schedule engine and the
nutrient interaction-graph builder, shallowly embedded from the TypeScript
source (`frontend/lib/ref.ts`, `frontend/lib/types.ts`,
`frontend/app/api/network/graph/route.ts`, and the graph page component).

JavaScript numbers are modelled as `JSNum` (NaN, the two infinities, or a
finite rational); machine strings are Lean `String`s with character-level
helper functions mirroring `trim`, `toLowerCase`, `includes`, `split` and
`replace(/\s+/g, "_")`.
-/

namespace Hemovita

/-- A JavaScript number: NaN, +Infinity, -Infinity, or a finite value
(modelled as a rational). -/
inductive JSNum where
  | nan : JSNum
  | posInf : JSNum
  | negInf : JSNum
  | num : ℚ → JSNum
deriving DecidableEq

/-- The `<` comparison of JavaScript numbers: any comparison with NaN is
false; -Infinity is below everything else; +Infinity is above everything
else; finite values compare as rationals. -/
def jsLt : JSNum → JSNum → Bool
  | JSNum.nan, _ => false
  | _, JSNum.nan => false
  | JSNum.negInf, JSNum.negInf => false
  | JSNum.negInf, _ => true
  | _, JSNum.negInf => false
  | JSNum.posInf, _ => false
  | JSNum.num _, JSNum.posInf => true
  | JSNum.num q, JSNum.num r => decide (q < r)

/-- The `>` comparison of JavaScript numbers. -/
def jsGt (a b : JSNum) : Bool := jsLt b a

/-- A reference range `{low?, high?}` from `frontend/lib/ref.ts`. -/
structure RefRange where
  low : Option ℚ
  high : Option ℚ
deriving DecidableEq

/-- The static `REF` table of `frontend/lib/ref.ts`, keyed by marker id. -/
def REF : List (String × RefRange) :=
  [ ("Hemoglobin", ⟨some 12, some 16⟩),
    ("MCV", ⟨some 80, some 100⟩),
    ("ferritin", ⟨some 30, some 200⟩),
    ("indicator_iron_serum", ⟨some 60, some 170⟩),
    ("transferrin", ⟨some 200, some 360⟩),
    ("total_iron_binding_capacity", ⟨some 250, some 450⟩),
    ("vitamin_B12", ⟨some 200, some 900⟩),
    ("folate_plasma", ⟨some 4, some 20⟩),
    ("vitamin_D", ⟨some 20, some 50⟩),
    ("vitamin_C", ⟨some (4/10), some 2⟩),
    ("vitamin_E", ⟨some 5, some 20⟩),
    ("vitamin_A", ⟨some 20, some 80⟩),
    ("vitamin_B6", ⟨some 5, some 50⟩),
    ("magnesium", ⟨some (17/10), some (23/10)⟩),
    ("calcium", ⟨some (86/10), some (102/10)⟩),
    ("zinc", ⟨some 60, some 120⟩),
    ("homocysteine", ⟨some 5, some 15⟩) ]

/-- `value < r.low` with an optional bound: false when the bound is absent,
as in `r.low != null && value < r.low`. -/
def ltOptLow (v : JSNum) : Option ℚ → Bool
  | some l => jsLt v (JSNum.num l)
  | none => false

/-- `value > r.high` with an optional bound: false when the bound is absent,
as in `r.high != null && value > r.high`. -/
def gtOptHigh (v : JSNum) : Option ℚ → Bool
  | some h => jsGt v (JSNum.num h)
  | none => false

/-- `classifyValue` from `frontend/lib/ref.ts`: absent value, NaN value or a
marker missing from `REF` give "unknown"; otherwise compare against the
optional bounds. -/
def classifyValue (marker : String) (value : Option JSNum) : String :=
  match REF.lookup marker, value with
  | none, _ => "unknown"
  | some _, none => "unknown"
  | some r, some v =>
    if v = JSNum.nan then "unknown"
    else if ltOptLow v r.low then "low"
    else if gtOptHigh v r.high then "high"
    else "normal"

/-- A successful association-list lookup comes from a member pair. -/
theorem mem_of_lookup_eq_some {α β : Type} [BEq α] [LawfulBEq α]
    {l : List (α × β)} {k : α} {v : β} (h : l.lookup k = some v) : (k, v) ∈ l := by
  induction l with
  | nil => simp [List.lookup] at h
  | cons p t ih =>
    obtain ⟨a, b⟩ := p
    rw [List.lookup] at h
    cases hb : (k == a) with
    | true =>
      rw [hb] at h
      simp only [Option.some.injEq] at h
      subst h
      exact (beq_iff_eq.mp hb) ▸ List.mem_cons_self _ _
    | false =>
      rw [hb] at h
      exact List.mem_cons_of_mem _ (ih h)

/-- Every entry of the `REF` table has both bounds, with `low < high`. -/
theorem REF_low_lt_high {m : String} {r : RefRange} (h : REF.lookup m = some r)
    {L H : ℚ} (hL : r.low = some L) (hH : r.high = some H) : L < H := by
  have hmem : (m, r) ∈ REF := mem_of_lookup_eq_some h
  fin_cases hmem <;>
    (simp only [RefRange.mk.injEq, Option.some.injEq] at hL hH ⊢) <;>
    (subst hL; subst hH) <;> norm_num

/-- `ltOptLow` on a finite value means: a low bound exists and the value is
strictly below it. -/
theorem ltOptLow_num (q : ℚ) (b : Option ℚ) :
    ltOptLow (JSNum.num q) b = true ↔ ∃ L, b = some L ∧ q < L := by
  cases b <;> simp [ltOptLow, jsLt]

/-- `gtOptHigh` on a finite value means: a high bound exists and the value is
strictly above it. -/
theorem gtOptHigh_num (q : ℚ) (b : Option ℚ) :
    gtOptHigh (JSNum.num q) b = true ↔ ∃ H, b = some H ∧ H < q := by
  cases b <;> simp [gtOptHigh, jsGt, jsLt]

/-- The low branch of the classifier fires (spec reading): a low bound is
present and the value is strictly below it. -/
def lowTriggered (r : RefRange) (q : ℚ) : Prop := ∃ L, r.low = some L ∧ q < L

/-- The high branch of the classifier fires (spec reading): a high bound is
present and the value is strictly above it. -/
def highTriggered (r : RefRange) (q : ℚ) : Prop := ∃ H, r.high = some H ∧ H < q

/-- C1 (counterexample): the claim "a non-finite value is classified
`unknown`" fails on the code: `classifyValue` only tests for absent values
and NaN, so `+Infinity` for `Hemoglobin` (range 12..16) is compared against
the bounds and classified "high", not "unknown". -/
theorem classifyValue_posInf_not_unknown :
    classifyValue "Hemoglobin" (some JSNum.posInf) = "high" ∧
      classifyValue "Hemoglobin" (some JSNum.posInf) ≠ "unknown" := by
  constructor <;> decide

/-- C1 (amended): if the value is absent, or the value is NaN, or no
`REF` entry exists for the marker, then `classifyValue` returns "unknown".
(Infinite values with a reference range present are instead compared
against the bounds.) -/
theorem classifyValue_unknown_cases (marker : String) (value : Option JSNum)
    (h : value = none ∨ value = some JSNum.nan ∨ REF.lookup marker = none) :
    classifyValue marker value = "unknown" := by
  rcases h with h | h | h
  · subst h
    unfold classifyValue
    cases REF.lookup marker <;> rfl
  · subst h
    unfold classifyValue
    cases REF.lookup marker <;> simp
  · unfold classifyValue
    rw [h]

/-- C1 witness: the amended theorem at concrete inputs covering all three
hypothesis cases. -/
theorem classifyValue_unknown_cases_witness :
    classifyValue "Hemoglobin" none = "unknown" ∧
      classifyValue "Hemoglobin" (some JSNum.nan) = "unknown" ∧
      classifyValue "no_such_marker" (some (JSNum.num 3)) = "unknown" :=
  ⟨classifyValue_unknown_cases "Hemoglobin" none (Or.inl rfl),
   classifyValue_unknown_cases "Hemoglobin" (some JSNum.nan) (Or.inr (Or.inl rfl)),
   classifyValue_unknown_cases "no_such_marker" (some (JSNum.num 3))
     (Or.inr (Or.inr (by decide)))⟩

/-- C2: for a marker with a `REF` entry and a finite value, the classifier
returns "low" iff the low bound is defined and the value is strictly below
it; otherwise "high" iff the high bound is defined and the value is
strictly above it; otherwise "normal"; and both boundary values themselves
classify as "normal" (inclusive bounds). -/
theorem classifyValue_range_spec (marker : String) (r : RefRange)
    (h : REF.lookup marker = some r) (q : ℚ) :
    (lowTriggered r q → classifyValue marker (some (JSNum.num q)) = "low") ∧
      (¬ lowTriggered r q → highTriggered r q →
        classifyValue marker (some (JSNum.num q)) = "high") ∧
      (¬ lowTriggered r q → ¬ highTriggered r q →
        classifyValue marker (some (JSNum.num q)) = "normal") ∧
      (∀ L, r.low = some L → classifyValue marker (some (JSNum.num L)) = "normal") ∧
      (∀ H, r.high = some H → classifyValue marker (some (JSNum.num H)) = "normal") := by
  unfold classifyValue
  rw [h]
  simp only [reduceCtorEq, if_false]
  refine ⟨?_, ?_, ?_, ?_, ?_⟩
  · intro hlow
    rw [(ltOptLow_num q r.low).mpr hlow]
    rfl
  · intro hnl hh
    have : ltOptLow (JSNum.num q) r.low = false := by
      rcases hb : ltOptLow (JSNum.num q) r.low with _ | _
      · rfl
      · exact absurd ((ltOptLow_num q r.low).mp hb) hnl
    rw [this, (gtOptHigh_num q r.high).mpr hh]
    rfl
  · intro hnl hnh
    have h1 : ltOptLow (JSNum.num q) r.low = false := by
      rcases hb : ltOptLow (JSNum.num q) r.low with _ | _
      · rfl
      · exact absurd ((ltOptLow_num q r.low).mp hb) hnl
    have h2 : gtOptHigh (JSNum.num q) r.high = false := by
      rcases hb : gtOptHigh (JSNum.num q) r.high with _ | _
      · rfl
      · exact absurd ((gtOptHigh_num q r.high).mp hb) hnh
    rw [h1, h2]
    rfl
  · intro L hL
    have h1 : ltOptLow (JSNum.num L) r.low = false := by
      rw [hL]
      simp [ltOptLow, jsLt]
    have h2 : gtOptHigh (JSNum.num L) r.high = false := by
      rcases hH : r.high with _ | H
      · rfl
      · have := REF_low_lt_high h hL hH
        simp [gtOptHigh, jsGt, jsLt]
        linarith
    rw [h1, h2]
    rfl
  · intro H hH
    have h1 : ltOptLow (JSNum.num H) r.low = false := by
      rcases hL : r.low with _ | L
      · rfl
      · have := REF_low_lt_high h hL hH
        simp [ltOptLow, jsLt]
        linarith
    have h2 : gtOptHigh (JSNum.num H) r.high = false := by
      rw [hH]
      simp [gtOptHigh, jsGt, jsLt]
    rw [h1, h2]
    rfl

/-- C2 witness: the range spec at the `Hemoglobin` entry (12..16): below
the low bound, above the high bound, strictly inside, and at both
boundaries. -/
theorem classifyValue_range_spec_witness :
    classifyValue "Hemoglobin" (some (JSNum.num 10)) = "low" ∧
      classifyValue "Hemoglobin" (some (JSNum.num 17)) = "high" ∧
      classifyValue "Hemoglobin" (some (JSNum.num 13)) = "normal" ∧
      classifyValue "Hemoglobin" (some (JSNum.num 12)) = "normal" ∧
      classifyValue "Hemoglobin" (some (JSNum.num 16)) = "normal" := by
  have hlk : REF.lookup "Hemoglobin" = some ⟨some 12, some 16⟩ := by decide
  refine ⟨?_, ?_, ?_, ?_, ?_⟩
  · exact (classifyValue_range_spec "Hemoglobin" _ hlk 10).1
      ⟨12, rfl, by norm_num⟩
  · exact (classifyValue_range_spec "Hemoglobin" _ hlk 17).2.1
      (by rintro ⟨L, hL, hq⟩; simp at hL; subst hL; norm_num at hq)
      ⟨16, rfl, by norm_num⟩
  · exact (classifyValue_range_spec "Hemoglobin" _ hlk 13).2.2.1
      (by rintro ⟨L, hL, hq⟩; simp at hL; subst hL; norm_num at hq)
      (by rintro ⟨H, hH, hq⟩; simp at hH; subst hH; norm_num at hq)
  · exact (classifyValue_range_spec "Hemoglobin" _ hlk 12).2.2.2.1 12 rfl
  · exact (classifyValue_range_spec "Hemoglobin" _ hlk 16).2.2.2.2 16 rfl

/-- A `MarkerClassification` from `frontend/lib/types.ts`. -/
structure MarkerClassification where
  marker : String
  value : Option JSNum
  status : String
  note : String
deriving DecidableEq

/-- A `ScheduleItem` from `frontend/lib/types.ts`. -/
structure ScheduleItem where
  title : String
  timeframe : String
  description : String
deriving DecidableEq

/-- An entry of the static `NOTES` table: optional note text for the "low"
and "high" statuses. -/
structure NoteEntry where
  low : Option String
  high : Option String
deriving DecidableEq

/-- The static `NOTES` table of `frontend/lib/types.ts`. -/
def NOTES : List (String × NoteEntry) :=
  [ ("Hemoglobin",
     ⟨some "Hemoglobin is below the reference range and may indicate anemia or iron deficiency.",
      some "Elevated hemoglobin can be associated with dehydration or chronic hypoxia."⟩),
    ("MCV",
     ⟨some "Low MCV values can signal microcytic anemia, often linked to iron deficiency.",
      some "High MCV is associated with macrocytic anemia and can reflect B12 or folate deficiency."⟩),
    ("ferritin",
     ⟨some "Low ferritin is a strong indicator of depleted iron stores.",
      some "High ferritin can be inflammatory or signal iron overload."⟩),
    ("vitamin_B12",
     ⟨some "Low B12 may contribute to neuropathy and macrocytic anemia.",
      some "Elevated B12 can be linked to supplementation or liver dysfunction."⟩),
    ("folate_plasma",
     ⟨some "Low folate can impair cell division and contribute to macrocytic anemia.",
      some "High folate is usually benign but can mask B12 deficiency symptoms."⟩),
    ("vitamin_D",
     ⟨some "Low vitamin D is associated with bone density loss and immune dysregulation.",
      some "High vitamin D may cause hypercalcemia; ensure dosing is appropriate."⟩),
    ("homocysteine",
     ⟨none,
      some "Elevated homocysteine is a cardiovascular risk marker and may respond to B12, folate, and B6."⟩) ]

/-- `NOTES[marker]?.[status]`: indexing a note entry with an arbitrary
status string yields its "low"/"high" text when present, and nothing for
any other status. -/
def noteLookup (marker status : String) : Option String :=
  match NOTES.lookup marker with
  | none => none
  | some e => if status = "low" then e.low else if status = "high" then e.high else none

/-- One element of the `markers` array built by `buildRecommendations`. -/
def classifyEntry (marker : String) (value : Option JSNum) : MarkerClassification :=
  let status := classifyValue marker value
  let note := (noteLookup marker status).getD
    (if status = "normal" then "Within the reference range; continue current support."
     else "No reference available for this marker.")
  ⟨marker, value, status, note⟩

/-- `hasIronIssues` from `buildSchedule`. -/
def hasIronIssues (classifications : List MarkerClassification) : Bool :=
  classifications.any fun c =>
    (c.marker == "Hemoglobin" || c.marker == "ferritin" || c.marker == "indicator_iron_serum") &&
      c.status == "low"

/-- `hasBComplexIssues` from `buildSchedule`. -/
def hasBComplexIssues (classifications : List MarkerClassification) : Bool :=
  classifications.any fun c =>
    (c.marker == "vitamin_B12" || c.marker == "folate_plasma" || c.marker == "vitamin_B6") &&
      (c.status == "low" || c.status == "high")

/-- `hasVitaminDIssue` from `buildSchedule`. -/
def hasVitaminDIssue (classifications : List MarkerClassification) : Bool :=
  classifications.any fun c => c.marker == "vitamin_D" && c.status != "normal"

/-- `followUps` from `buildSchedule`: the number of non-"normal" results. -/
def followUps (classifications : List MarkerClassification) : Nat :=
  (classifications.filter fun c => c.status != "normal").length

/-- The fixed lifestyle check-in item. -/
def lifestyleItem : ScheduleItem :=
  ⟨"Lifestyle Check-in", "This week",
   "Review dietary intake, sleep, and stress. Capture at least three days of meals to discuss with your care team."⟩

/-- The iron follow-up item. -/
def ironItem : ScheduleItem :=
  ⟨"Iron Re-evaluation", "In 6-8 weeks",
   "Re-check hemoglobin, ferritin, and transferrin saturation after implementing dietary or supplement changes."⟩

/-- The B-vitamin follow-up item. -/
def bComplexItem : ScheduleItem :=
  ⟨"B-Vitamin Follow-up", "In 8 weeks",
   "Assess B12, folate, and homocysteine after adjusting intake or supplements."⟩

/-- The vitamin-D follow-up item. -/
def vitaminDItem : ScheduleItem :=
  ⟨"Vitamin D Monitoring", "In 12 weeks",
   "Re-test 25(OH)D to ensure levels trend toward the target range."⟩

/-- `buildSchedule` from `frontend/lib/types.ts`. -/
def buildSchedule (classifications : List MarkerClassification) : List ScheduleItem :=
  [ lifestyleItem,
    { title := "Practitioner Review",
      timeframe := if 0 < followUps classifications then "Within 2 weeks" else "Within 6 months",
      description :=
        if followUps classifications ≠ 0 then
          "Share these results with your primary care provider or dietitian to confirm next steps."
        else "Maintain routine monitoring with your healthcare provider." } ] ++
    (if hasIronIssues classifications then [ironItem] else []) ++
    (if hasBComplexIssues classifications then [bComplexItem] else []) ++
    (if hasVitaminDIssue classifications then [vitaminDItem] else [])

/-- `summarize` from `frontend/lib/types.ts`. -/
def summarize (classifications : List MarkerClassification) : String :=
  let lowCount := (classifications.filter fun c => c.status == "low").length
  let highCount := (classifications.filter fun c => c.status == "high").length
  if lowCount = 0 ∧ highCount = 0 then
    "All submitted markers are currently within the reference range."
  else
    let parts := (if lowCount ≠ 0 then [toString lowCount ++ " low"] else []) ++
      (if highCount ≠ 0 then [toString highCount ++ " high"] else [])
    "Detected " ++ String.intercalate " and " parts ++ " marker" ++
      (if 1 < lowCount + highCount then "s" else "") ++ ". Prioritize follow-up with your provider."

/-- The `RecommendationPayload` of `frontend/lib/types.ts`. -/
structure RecommendationPayload where
  markers : List MarkerClassification
  summary : String
  schedule : List ScheduleItem

/-- `buildRecommendations` from `frontend/lib/types.ts`, over the entries
of the submitted lab-input object. -/
def buildRecommendations (values : List (String × Option JSNum)) : RecommendationPayload :=
  let markers := values.map fun p => classifyEntry p.1 p.2
  ⟨markers, summarize markers, buildSchedule markers⟩

/-- Spec-side iron flag: some marker of the fixed iron subset is "low". -/
def ironFlagP (cls : List MarkerClassification) : Prop :=
  ∃ c ∈ cls, c.marker ∈ ["Hemoglobin", "ferritin", "indicator_iron_serum"] ∧ c.status = "low"

/-- Spec-side B-complex flag: some marker of the fixed B-vitamin subset is
"low" or "high". -/
def bComplexFlagP (cls : List MarkerClassification) : Prop :=
  ∃ c ∈ cls, c.marker ∈ ["vitamin_B12", "folate_plasma", "vitamin_B6"] ∧
    (c.status = "low" ∨ c.status = "high")

/-- Spec-side vitamin-D flag: the vitamin-D marker has a non-"normal"
status. -/
def vitaminDFlagP (cls : List MarkerClassification) : Prop :=
  ∃ c ∈ cls, c.marker = "vitamin_D" ∧ c.status ≠ "normal"

/-- Spec-side follow-up condition: some result has a non-"normal" status. -/
def anyAbnormalP (cls : List MarkerClassification) : Prop :=
  ∃ c ∈ cls, c.status ≠ "normal"

/-- The iron `any`-scan agrees with its spec-side flag. -/
theorem hasIronIssues_iff (cls : List MarkerClassification) :
    hasIronIssues cls = true ↔ ironFlagP cls := by
  simp [hasIronIssues, ironFlagP, List.any_eq_true, or_assoc]

/-- The B-complex `any`-scan agrees with its spec-side flag. -/
theorem hasBComplexIssues_iff (cls : List MarkerClassification) :
    hasBComplexIssues cls = true ↔ bComplexFlagP cls := by
  simp [hasBComplexIssues, bComplexFlagP, List.any_eq_true, or_assoc]

/-- The vitamin-D `any`-scan agrees with its spec-side flag. -/
theorem hasVitaminDIssue_iff (cls : List MarkerClassification) :
    hasVitaminDIssue cls = true ↔ vitaminDFlagP cls := by
  simp [hasVitaminDIssue, vitaminDFlagP, List.any_eq_true]

/-- The follow-up count is positive exactly when some status is
non-"normal". -/
theorem followUps_pos_iff (cls : List MarkerClassification) :
    0 < followUps cls ↔ anyAbnormalP cls := by
  simp [followUps, anyAbnormalP, List.length_pos, List.filter_eq_nil_iff]


instance (cls : List MarkerClassification) : Decidable (ironFlagP cls) :=
  decidable_of_iff _ (hasIronIssues_iff cls)

instance (cls : List MarkerClassification) : Decidable (bComplexFlagP cls) :=
  decidable_of_iff _ (hasBComplexIssues_iff cls)

instance (cls : List MarkerClassification) : Decidable (vitaminDFlagP cls) :=
  decidable_of_iff _ (hasVitaminDIssue_iff cls)

instance (cls : List MarkerClassification) : Decidable (anyAbnormalP cls) :=
  decidable_of_iff _ (followUps_pos_iff cls)

/-- `buildSchedule` in closed form, with the code's boolean scans replaced
by the spec-side flags. -/
theorem buildSchedule_eq (cls : List MarkerClassification) :
    buildSchedule cls =
      [ lifestyleItem,
        { title := "Practitioner Review",
          timeframe := if anyAbnormalP cls then "Within 2 weeks" else "Within 6 months",
          description :=
            if anyAbnormalP cls then
              "Share these results with your primary care provider or dietitian to confirm next steps."
            else "Maintain routine monitoring with your healthcare provider." } ] ++
      (if ironFlagP cls then [ironItem] else []) ++
      (if bComplexFlagP cls then [bComplexItem] else []) ++
      (if vitaminDFlagP cls then [vitaminDItem] else []) := by
  unfold buildSchedule
  have h1 : (0 < followUps cls) = anyAbnormalP cls := propext (followUps_pos_iff cls)
  have h1' : (followUps cls ≠ 0) = anyAbnormalP cls := by
    rw [← h1]; exact propext Nat.pos_iff_ne_zero.symm
  have h2 : (hasIronIssues cls = true) = ironFlagP cls := propext (hasIronIssues_iff cls)
  have h3 : (hasBComplexIssues cls = true) = bComplexFlagP cls :=
    propext (hasBComplexIssues_iff cls)
  have h4 : (hasVitaminDIssue cls = true) = vitaminDFlagP cls :=
    propext (hasVitaminDIssue_iff cls)
  simp only [h1, h1', h2, h3, h4]

/-- C3: the schedule is exactly the lifestyle check-in item, then a
practitioner review item whose timeframe is "Within 2 weeks" iff some
result is non-"normal" (else "Within 6 months"), then one conditional item
per true flag in the fixed order iron, B-complex, vitamin D; the item
count is 2 plus the number of true flags, between 2 and 5, and no two
items share a title. -/
theorem buildSchedule_plan_spec (cls : List MarkerClassification) :
    buildSchedule cls =
      [ lifestyleItem,
        { title := "Practitioner Review",
          timeframe := if anyAbnormalP cls then "Within 2 weeks" else "Within 6 months",
          description :=
            if anyAbnormalP cls then
              "Share these results with your primary care provider or dietitian to confirm next steps."
            else "Maintain routine monitoring with your healthcare provider." } ] ++
      (if ironFlagP cls then [ironItem] else []) ++
      (if bComplexFlagP cls then [bComplexItem] else []) ++
      (if vitaminDFlagP cls then [vitaminDItem] else []) ∧
    (buildSchedule cls).length =
      2 + ((if ironFlagP cls then 1 else 0) + (if bComplexFlagP cls then 1 else 0) +
        (if vitaminDFlagP cls then 1 else 0)) ∧
    2 ≤ (buildSchedule cls).length ∧ (buildSchedule cls).length ≤ 5 ∧
    (∃ pr, (buildSchedule cls)[1]? = some pr ∧ pr.title = "Practitioner Review" ∧
      (pr.timeframe = "Within 2 weeks" ↔ anyAbnormalP cls) ∧
      (¬ anyAbnormalP cls → pr.timeframe = "Within 6 months")) ∧
    ((buildSchedule cls).map ScheduleItem.title).Nodup := by
  have e := buildSchedule_eq cls
  refine ⟨e, ?_, ?_, ?_, ?_, ?_⟩
  · rw [e]
    simp only [List.length_append, List.length_cons, List.length_nil, apply_ite List.length]
    split_ifs <;> simp
  · rw [e]
    simp only [List.length_append, List.length_cons, List.length_nil, apply_ite List.length]
    split_ifs <;> simp
  · rw [e]
    simp only [List.length_append, List.length_cons, List.length_nil, apply_ite List.length]
    split_ifs <;> simp
  · have hpr : (buildSchedule cls)[1]? = some
        { title := "Practitioner Review",
          timeframe := if anyAbnormalP cls then "Within 2 weeks" else "Within 6 months",
          description :=
            if anyAbnormalP cls then
              "Share these results with your primary care provider or dietitian to confirm next steps."
            else "Maintain routine monitoring with your healthcare provider." } := by
      rw [e]
      simp [List.cons_append]
    refine ⟨_, hpr, rfl, ?_, ?_⟩
    · by_cases ha : anyAbnormalP cls <;> simp [ha]
    · intro ha
      simp [ha]
  · rw [e]
    simp only [List.map_append, List.map_cons, List.map_nil, apply_ite (List.map ScheduleItem.title)]
    split_ifs <;> simp [lifestyleItem, ironItem, bComplexItem, vitaminDItem]


/-- C3 witness: the schedule for a single low Hemoglobin result has
exactly three items (base items plus the iron follow-up). -/
theorem buildSchedule_plan_spec_witness :
    (buildSchedule [⟨"Hemoglobin", some (JSNum.num 10), "low", ""⟩]).length = 3 :=
  ((buildSchedule_plan_spec [⟨"Hemoglobin", some (JSNum.num 10), "low", ""⟩]).2.1).trans
    (by decide)

/-- Magnesium has a reference range (1.7 .. 2.3), and the value 1 falls
below it. -/
theorem classify_magnesium_low :
    classifyValue "magnesium" (some (JSNum.num 1)) = "low" := by
  simp [classifyValue, REF, List.lookup, ltOptLow, jsLt]
  norm_num

/-- C10: in `buildRecommendations`, every submitted marker whose status is
not "normal" and whose status has no entry in the `NOTES` table gets the
note "No reference available for this marker." — even when a reference
range exists, as for magnesium classified "low", so that note text does
not indicate a missing reference range. -/
theorem buildRecommendations_missing_note_spec (values : List (String × Option JSNum)) :
    (∀ c ∈ (buildRecommendations values).markers, c.status ≠ "normal" →
      noteLookup c.marker c.status = none →
      c.note = "No reference available for this marker.") ∧
    (REF.lookup "magnesium").isSome = true ∧
    NOTES.lookup "magnesium" = none ∧
    (buildRecommendations [("magnesium", some (JSNum.num 1))]).markers.map
      (fun c => (c.status, c.note)) =
      [("low", "No reference available for this marker.")] := by
  refine ⟨?_, by decide, by decide, ?_⟩
  · intro c hc hst hnl
    simp only [buildRecommendations, List.mem_map] at hc
    obtain ⟨p, hp, rfl⟩ := hc
    simp only [classifyEntry] at hst hnl ⊢
    rw [hnl]
    simp only [Option.getD_none]
    rw [if_neg hst]
  · simp only [buildRecommendations, List.map_cons, List.map_nil, classifyEntry,
      classify_magnesium_low]
    decide

/-- C10 witness: the general note rule applied to the magnesium entry. -/
theorem buildRecommendations_missing_note_spec_witness :
    (classifyEntry "magnesium" (some (JSNum.num 1))).note =
      "No reference available for this marker." := by
  have hst : (classifyEntry "magnesium" (some (JSNum.num 1))).status = "low" := by
    simp [classifyEntry, classify_magnesium_low]
  refine (buildRecommendations_missing_note_spec
      [("magnesium", some (JSNum.num 1))]).1 _ ?_ ?_ ?_
  · simp [buildRecommendations]
  · rw [hst]
    decide
  · rw [hst]
    decide

/-- The whitespace characters recognised by `trim` and `\s`
(ASCII fragment). -/
def wsChar (c : Char) : Bool :=
  c == ' ' || c == '\t' || c == '\n' || c == '\r' || c == '\x0b' || c == '\x0c'

/-- Remove leading and trailing whitespace from a character list
(`String.prototype.trim`). -/
def trimChars (l : List Char) : List Char :=
  ((l.dropWhile wsChar).reverse.dropWhile wsChar).reverse

/-- `s.trim()`. -/
def trimStr (s : String) : String := String.mk (trimChars s.data)

/-- ASCII lower-casing of one character. -/
def lowerChar (c : Char) : Char :=
  if 'A' ≤ c ∧ c ≤ 'Z' then Char.ofNat (c.toNat + 32) else c

/-- `s.toLowerCase()` (ASCII fragment). -/
def lowerStr (s : String) : String := String.mk (s.data.map lowerChar)

/-- Does the second list occur as a prefix of the first list of
characters? -/
def leadsWith : List Char → List Char → Bool
  | _, [] => true
  | [], _ :: _ => false
  | c :: cs, p :: ps => c == p && leadsWith cs ps

/-- Does `pat` occur as a contiguous substring of `s`
(`String.prototype.includes`)? -/
def containsList (s pat : List Char) : Bool :=
  match s with
  | [] => pat.isEmpty
  | _ :: cs => leadsWith s pat || containsList cs pat

/-- `s.includes(pat)`. -/
def includesStr (s pat : String) : Bool := containsList s.data pat.data

/-- `s.startsWith(pat)`. -/
def startsWithStr (s pat : String) : Bool := leadsWith s.data pat.data

/-- Split a character list at every occurrence of a separator character
(`String.prototype.split` with a one-character separator). -/
def splitOnChar (sep : Char) : List Char → List (List Char)
  | [] => [[]]
  | c :: cs =>
    if c == sep then [] :: splitOnChar sep cs
    else
      match splitOnChar sep cs with
      | [] => [[c]]
      | h :: t => (c :: h) :: t

/-- Split a character list on the line separator regex `\r?\n`. -/
def splitNl : List Char → List (List Char)
  | [] => [[]]
  | '\r' :: '\n' :: rest => [] :: splitNl rest
  | '\n' :: rest => [] :: splitNl rest
  | c :: rest =>
    match splitNl rest with
    | [] => [[c]]
    | h :: t => (c :: h) :: t

/-- `raw.split(/\r?\n/)`. -/
def splitLines (s : String) : List String := (splitNl s.data).map String.mk

/-- Join character lists with a comma (`notesParts.join(",")`). -/
def joinWithComma : List (List Char) → List Char
  | [] => []
  | [x] => x
  | x :: y :: t => x ++ ',' :: joinWithComma (y :: t)

/-- A `CsvEdge` record from the graph route. -/
structure CsvEdge where
  source : String
  target : String
  effect : String
  confidence : String
  notes : String
deriving DecidableEq

/-- Parsing of one data line of the relationship table: split on commas;
lines with fewer than 5 fields yield nothing; otherwise the first four
fields are trimmed and all remaining fields are rejoined with "," as the
notes. -/
def parseLine (line : String) : Option CsvEdge :=
  match splitOnChar ',' line.data with
  | a :: b :: c :: d :: e :: rest =>
    some ⟨String.mk (trimChars a), String.mk (trimChars b), String.mk (trimChars c),
      String.mk (trimChars d), String.mk (trimChars (joinWithComma (e :: rest)))⟩
  | _ => none

/-- The parsing loop of the graph route: accepted lines are pushed onto
the edge list in input order. -/
def parseEdges (lines : List String) : List CsvEdge :=
  lines.foldl
    (fun acc line =>
      match parseLine line with
      | some e => acc ++ [e]
      | none => acc)
    []

/-- `mapEffectToRelation` from the graph route. -/
def mapEffectToRelation (effect : String) : String :=
  let e := lowerStr (trimStr effect)
  if e = "boosts" ∨ e = "enhances" then "booster"
  else if e = "inhibits" ∨ e = "reduces" ∨ e = "blocks" then "antagonist"
  else if e = "cofactor" ∨ e = "supports" then "cofactor"
  else "shared"

/-- `confidenceToNumber` from the graph route. -/
def confidenceToNumber (conf : String) : ℚ :=
  let c := lowerStr (trimStr conf)
  if includesStr c "high" && includesStr c "moderate" then 0.75
  else if includesStr c "high" then 0.9
  else if includesStr c "moderate" && includesStr c "low" then 0.45
  else if includesStr c "moderate" then 0.6
  else if includesStr c "low" then 0.3
  else 0.5

/-- The `MINERALS` name set from the graph route. -/
def MINERALS : List String := ["iron", "zinc", "magnesium", "calcium", "copper", "selenium"]

/-- `classifyNodeType` from the graph route. -/
def classifyNodeType (nodeId : String) : String :=
  let k := lowerStr nodeId
  if startsWithStr k "vitamin_" then "vitamin"
  else if k ∈ MINERALS then "mineral"
  else if includesStr k "hemoglobin" || includesStr k "ferritin" ||
      includesStr k "transferrin" || includesStr k "mcv" || includesStr k "tibc" ||
      includesStr k "indicator_" || includesStr k "homocysteine" ||
      includesStr k "anemia" then "marker"
  else "compound"

/-- `clusterOf` from the graph route. -/
def clusterOf (nodeId : String) : String :=
  let k := lowerStr nodeId
  if includesStr k "iron" || includesStr k "hemoglobin" || includesStr k "ferritin" ||
      includesStr k "transferrin" || includesStr k "tibc" then "iron"
  else if startsWithStr k "vitamin_b" then "b-complex"
  else if k = "vitamin_a" ∨ k = "vitamin_d" ∨ k = "vitamin_e" ∨ k = "vitamin_k" then "fat-soluble"
  else "other"

/-- One accumulator record of the `nodeSet` map: id, running degree, and
the strengths contributed by edges touching the node. -/
structure NodeAcc where
  id : String
  degree : Nat
  confidences : List ℚ
deriving DecidableEq

/-- `if (!nodeSet.has(k)) nodeSet.set(k, {id: k, degree: 0, confidences: []})`:
a missing key is appended (JS `Map` preserves insertion order). -/
def ensureNode (k : String) (acc : List NodeAcc) : List NodeAcc :=
  if acc.any (fun n => n.id == k) then acc else acc ++ [⟨k, 0, []⟩]

/-- `nodeSet.get(k)!.degree += 1`. -/
def bumpDegree (k : String) (acc : List NodeAcc) : List NodeAcc :=
  acc.map fun n => if n.id == k then { n with degree := n.degree + 1 } else n

/-- `nodeSet.get(k)!.confidences.push(q)`. -/
def pushConfidence (k : String) (q : ℚ) (acc : List NodeAcc) : List NodeAcc :=
  acc.map fun n =>
    if n.id == k then { n with confidences := n.confidences ++ [q] } else n

/-- The per-edge accumulation of the graph route: ensure both endpoints
exist, bump both degrees, and push the edge strength onto both endpoint
records. -/
def stepEdge (acc : List NodeAcc) (e : CsvEdge) : List NodeAcc :=
  let q := confidenceToNumber e.confidence
  pushConfidence e.target q
    (pushConfidence e.source q
      (bumpDegree e.target
        (bumpDegree e.source
          (ensureNode e.target (ensureNode e.source acc)))))

/-- The full accumulation over the edge list. -/
def buildAcc (edges : List CsvEdge) : List NodeAcc := edges.foldl stepEdge []

/-- `Math.max(1, ...degrees)`. -/
def maxDegree (acc : List NodeAcc) : Nat := acc.foldl (fun m n => max m n.degree) 1

/-- `id.replaceAll("_", " ")`. -/
def underscoreToSpace (s : String) : String :=
  String.mk (s.data.map fun c => if c == '_' then ' ' else c)

/-- A derived graph node. -/
structure GraphNode where
  id : String
  label : String
  type : String
  cluster : String
  importance : ℚ
  risk : ℚ
  confidence : ℚ
deriving DecidableEq

/-- A derived graph link. -/
structure GraphEdge where
  source : String
  target : String
  relation : String
  strength : ℚ
  confidenceLabel : String
  notes : String
deriving DecidableEq

/-- Derivation of the final node from its accumulator record. -/
def mkNode (maxDeg : Nat) (n : NodeAcc) : GraphNode :=
  { id := n.id,
    label := underscoreToSpace n.id,
    type := classifyNodeType n.id,
    cluster := clusterOf n.id,
    importance := (n.degree : ℚ) / (maxDeg : ℚ),
    risk := if includesStr n.id "anemia" then 1 else 0.5,
    confidence :=
      if n.confidences.length ≠ 0 then n.confidences.sum / (n.confidences.length : ℚ)
      else 0.5 }

/-- The link derived from one accepted edge record. -/
def mkLink (e : CsvEdge) : GraphEdge :=
  ⟨e.source, e.target, mapEffectToRelation e.effect, confidenceToNumber e.confidence,
   e.confidence, e.notes⟩

/-- The graph built from the accepted edge records. -/
def buildGraph (edges : List CsvEdge) : List GraphNode × List GraphEdge :=
  let acc := buildAcc edges
  (acc.map (mkNode (maxDegree acc)), edges.map mkLink)

/-- The JSON responses the route can produce. -/
inductive ApiResult where
  | jsonError (error : String) (status : Nat)
  | jsonOk (nodes : List GraphNode) (links : List GraphEdge) (status : Nat)
deriving DecidableEq

/-- The pure part of the route `GET` handler, as a function of the text
read from `network_relationships.csv`: drop blank lines, shift off the
header (empty input gives the "Empty CSV" error), parse the remaining
lines and build the graph. The `catch` branch for an unreadable file is
modelled by `readFailure`. -/
def GETgraph (raw : String) : ApiResult :=
  match (splitLines raw).filter (fun l => decide (0 < (trimStr l).length)) with
  | [] => ApiResult.jsonError "Empty CSV" 500
  | _header :: rest =>
    match buildGraph (parseEdges rest) with
    | (nodes, links) => ApiResult.jsonOk nodes links 200

/-- The `catch` branch of the route: a read failure is reported as an
error response with the exception message. -/
def readFailure (msg : String) : ApiResult := ApiResult.jsonError msg 500

/-- C4 (counterexample): a relationship table consisting of just a header
line is NOT reported as an error: the route returns a 200 response whose
graph has empty node and edge lists, because the "Empty CSV" guard only
fires when there are no non-blank lines at all. -/
theorem GETgraph_header_only_ok :
    GETgraph "source,target,effect,confidence,notes" = ApiResult.jsonOk [] [] 200 := by
  decide

/-- C4 (amended): when the table has no non-blank lines at all, the route
fails with the explicit "Empty CSV" error (status 500); when the table has
a header line but no data rows, the route succeeds with a graph that has
empty node and edge lists. -/
theorem GETgraph_empty_spec :
    (∀ raw, (splitLines raw).filter (fun l => decide (0 < (trimStr l).length)) = [] →
      GETgraph raw = ApiResult.jsonError "Empty CSV" 500) ∧
    (∀ raw header,
      (splitLines raw).filter (fun l => decide (0 < (trimStr l).length)) = [header] →
      GETgraph raw = ApiResult.jsonOk [] [] 200) := by
  constructor
  · intro raw h
    unfold GETgraph
    rw [h]
  · intro raw header h
    unfold GETgraph
    rw [h]
    rfl

/-- C4 witness: the amended theorem at an empty input and at a
header-only input. -/
theorem GETgraph_empty_spec_witness :
    GETgraph "" = ApiResult.jsonError "Empty CSV" 500 ∧
      GETgraph "source,target,effect,confidence,notes\n" = ApiResult.jsonOk [] [] 200 :=
  ⟨GETgraph_empty_spec.1 "" (by decide),
   GETgraph_empty_spec.2 "source,target,effect,confidence,notes\n"
     "source,target,effect,confidence,notes" (by decide)⟩

/-- The push-loop over lines is a `filterMap`. -/
theorem foldl_push_filterMap (lines : List String) (acc : List CsvEdge) :
    lines.foldl
      (fun acc line =>
        match parseLine line with
        | some e => acc ++ [e]
        | none => acc) acc
      = acc ++ lines.filterMap parseLine := by
  induction lines generalizing acc with
  | nil => simp
  | cons l t ih =>
    simp only [List.foldl_cons, List.filterMap_cons]
    cases parseLine l
    · simp [ih]
    · simp [ih]

/-- C5: the parser is a filterMap over the data lines (input order kept,
duplicates retained, one record per accepted line, nothing fatal); a line
with fewer than 5 comma-separated fields yields no record; a line with at
least 5 fields yields exactly the record whose first four fields are
trimmed and whose notes rejoin every remaining field with ",", so embedded
commas in notes are reconstructed. -/
theorem parseEdges_spec :
    (∀ lines : List String, parseEdges lines = lines.filterMap parseLine) ∧
    (∀ line : String, (splitOnChar ',' line.data).length < 5 → parseLine line = none) ∧
    (∀ (line : String) (a b c d e : List Char) (rest : List (List Char)),
      splitOnChar ',' line.data = a :: b :: c :: d :: e :: rest →
      parseLine line = some ⟨String.mk (trimChars a), String.mk (trimChars b),
        String.mk (trimChars c), String.mk (trimChars d),
        String.mk (trimChars (joinWithComma (e :: rest)))⟩) ∧
    parseLine "vitamin_d,calcium,boosts,High,Improves absorption, see note X" =
      some ⟨"vitamin_d", "calcium", "boosts", "High", "Improves absorption, see note X"⟩ := by
  refine ⟨?_, ?_, ?_, by decide⟩
  · intro lines
    unfold parseEdges
    rw [foldl_push_filterMap]
    simp
  · intro line h
    unfold parseLine
    split
    · rename_i a b c d e rest heq
      rw [heq] at h
      simp at h
      omega
    · rfl
  · intro line a b c d e rest h
    unfold parseLine
    rw [h]

/-- C5 witness: the parser spec applied to a 3-field line (skipped), a
concrete line list, and a 6-field line whose notes are rejoined. -/
theorem parseEdges_spec_witness :
    parseLine "a,b,c" = none ∧
      parseEdges ["a,b,c", "a,b,c,d,e,f"] = List.filterMap parseLine ["a,b,c", "a,b,c,d,e,f"] ∧
      parseLine "a,b,c,d,e,f" = some ⟨"a", "b", "c", "d", "e,f"⟩ :=
  ⟨parseEdges_spec.2.1 "a,b,c" (by decide),
   parseEdges_spec.1 ["a,b,c", "a,b,c,d,e,f"],
   (parseEdges_spec.2.2.1 "a,b,c,d,e,f" ['a'] ['b'] ['c'] ['d'] ['e'] [['f']]
     (by decide)).trans (by decide)⟩

/-- The ordered confidence-matching rules as the spec states them: both
"high" and "moderate" before "high" alone, both "moderate" and "low"
before "moderate" alone, then "low". -/
def confRules : List ((String → Bool) × ℚ) :=
  [ (fun c => includesStr c "high" && includesStr c "moderate", 0.75),
    (fun c => includesStr c "high", 0.9),
    (fun c => includesStr c "moderate" && includesStr c "low", 0.45),
    (fun c => includesStr c "moderate", 0.6),
    (fun c => includesStr c "low", 0.3) ]

/-- First-matching-rule evaluation with default 0.5. -/
def firstMatch : List ((String → Bool) × ℚ) → String → ℚ
  | [], _ => 0.5
  | r :: rs, c => if r.1 c then r.2 else firstMatch rs c

/-- C7: `confidenceToNumber` equals the ordered-rule evaluation over the
case-normalised label, with default 0.5; "High" gives 0.9 and "Low" gives
0.3, and a node touched by exactly those two edges has confidence
(0.9 + 0.3) / 2 = 0.6. -/
theorem confidenceToNumber_rules_spec :
    (∀ conf : String, confidenceToNumber conf = firstMatch confRules (lowerStr (trimStr conf))) ∧
    confidenceToNumber "High" = 0.9 ∧
    confidenceToNumber "Low" = 0.3 ∧
    (buildGraph [⟨"iron", "vitamin_c", "boosts", "High", ""⟩,
        ⟨"zinc", "iron", "inhibits", "Low", ""⟩]).1.map (fun n => (n.id, n.confidence)) =
      [("iron", 0.6), ("vitamin_c", 0.9), ("zinc", 0.3)] := by
  refine ⟨?_, ?_, ?_, ?_⟩
  · intro conf
    rfl
  · simp +decide [confidenceToNumber]
  · simp +decide [confidenceToNumber]
  · have h9 : confidenceToNumber "High" = 0.9 := by simp +decide [confidenceToNumber]
    have h3 : confidenceToNumber "Low" = 0.3 := by simp +decide [confidenceToNumber]
    simp +decide [buildGraph, buildAcc, stepEdge, ensureNode, bumpDegree, pushConfidence,
      mkNode, maxDegree, h9, h3]
    norm_num

/-- C8 (counterexample): the claim "risk is 1.0 if the identifier's
LOWERCASE form contains anemia" fails: the code tests the raw identifier,
so the node "Anemia" — whose lowercase form does contain "anemia" — gets
risk 0.5, not 1.0. -/
theorem risk_lowercase_cex :
    ((buildGraph [⟨"Anemia", "iron", "boosts", "High", ""⟩]).1.map
      (fun n => (n.id, n.risk)) = [("Anemia", 0.5), ("iron", 0.5)]) ∧
    includesStr (lowerStr "Anemia") "anemia" = true := by
  constructor
  · simp +decide [buildGraph, buildAcc, stepEdge, ensureNode, bumpDegree, pushConfidence,
      mkNode, maxDegree]
  · decide

/-- C8 (amended): a node's risk is 1 exactly when its identifier itself
(case-sensitively) contains the substring "anemia", else 0.5; the
lowercase node "anemia" does get risk 1. -/
theorem risk_spec (edges : List CsvEdge) :
    ((buildGraph edges).1.map GraphNode.risk) =
      ((buildGraph edges).1.map (fun n => if includesStr n.id "anemia" then 1 else 0.5)) ∧
    ((buildGraph [⟨"anemia", "iron", "boosts", "High", ""⟩]).1.map
      (fun n => (n.id, n.risk)) = [("anemia", 1), ("iron", 0.5)]) := by
  constructor
  · refine List.map_congr_left ?_
    intro n hn
    simp only [buildGraph, List.mem_map] at hn
    obtain ⟨a, _, rfl⟩ := hn
    rfl
  · simp +decide [buildGraph, buildAcc, stepEdge, ensureNode, bumpDegree, pushConfidence,
      mkNode, maxDegree]

/-- The identifiers of the accumulator records, in insertion order. -/
def accIds (acc : List NodeAcc) : List String := acc.map NodeAcc.id

/-- The sum of the accumulated node degrees. -/
def degSum (acc : List NodeAcc) : Nat := (acc.map NodeAcc.degree).sum

/-- All edge endpoints, in order, with repetitions. -/
def endpoints : List CsvEdge → List String
  | [] => []
  | e :: t => e.source :: e.target :: endpoints t

/-- All strengths accumulated on a record lie in the unit interval. -/
def confOK (n : NodeAcc) : Prop := ∀ q ∈ n.confidences, 0 ≤ q ∧ q ≤ 1

/-- The `has` test of `ensureNode` agrees with id membership. -/
theorem ensure_any_iff (k : String) (acc : List NodeAcc) :
    (acc.any fun n => n.id == k) = true ↔ k ∈ accIds acc := by
  simp [accIds, List.any_eq_true, List.mem_map]

/-- `ensureNode` appends the key exactly when it is new. -/
theorem accIds_ensureNode (j : String) (acc : List NodeAcc) :
    accIds (ensureNode j acc) =
      if j ∈ accIds acc then accIds acc else accIds acc ++ [j] := by
  unfold ensureNode
  by_cases h : j ∈ accIds acc
  · rw [if_pos ((ensure_any_iff j acc).mpr h), if_pos h]
  · rw [if_neg ?_, if_neg h]
    · simp [accIds]
    · intro hb
      exact h ((ensure_any_iff j acc).mp hb)

/-- Bumping a degree leaves the id list unchanged. -/
theorem accIds_bumpDegree (k : String) (acc : List NodeAcc) :
    accIds (bumpDegree k acc) = accIds acc := by
  unfold accIds bumpDegree
  rw [List.map_map]
  refine List.map_congr_left ?_
  intro n _
  simp only [Function.comp_apply]
  split <;> rfl

/-- Pushing a strength leaves the id list unchanged. -/
theorem accIds_pushConfidence (k : String) (q : ℚ) (acc : List NodeAcc) :
    accIds (pushConfidence k q acc) = accIds acc := by
  unfold accIds pushConfidence
  rw [List.map_map]
  refine List.map_congr_left ?_
  intro n _
  simp only [Function.comp_apply]
  split <;> rfl

/-- `ensureNode` leaves the degree sum unchanged. -/
theorem degSum_ensureNode (j : String) (acc : List NodeAcc) :
    degSum (ensureNode j acc) = degSum acc := by
  unfold ensureNode
  split
  · rfl
  · simp [degSum]

/-- Bumping adds one per record whose id matches. -/
theorem degSum_bumpDegree (k : String) (acc : List NodeAcc) :
    degSum (bumpDegree k acc) = degSum acc + (accIds acc).countP (fun x => x == k) := by
  unfold degSum bumpDegree accIds
  rw [List.map_map]
  induction acc with
  | nil => rfl
  | cons n t ih =>
    simp only [List.map_cons, List.sum_cons, List.countP_cons, Function.comp_apply]
    rw [ih]
    cases h : (n.id == k) <;> simp [h] <;> omega

/-- Counting matches of `· == k` is counting occurrences of `k`. -/
theorem countP_beq_eq_count (k : String) (l : List String) :
    l.countP (fun x => x == k) = l.count k := rfl

theorem degSum_pushConfidence (k : String) (q : ℚ) (acc : List NodeAcc) :
    degSum (pushConfidence k q acc) = degSum acc := by
  unfold degSum pushConfidence
  rw [List.map_map]
  congr 1
  refine List.map_congr_left ?_
  intro n _
  simp only [Function.comp_apply]
  split <;> rfl

/-- `ensureNode` preserves distinctness of the ids. -/
theorem nodup_accIds_ensureNode (j : String) (acc : List NodeAcc)
    (h : (accIds acc).Nodup) : (accIds (ensureNode j acc)).Nodup := by
  rw [accIds_ensureNode]
  by_cases hj : j ∈ accIds acc
  · rwa [if_pos hj]
  · rw [if_neg hj]
    simp [List.nodup_append, h, hj]

/-- Membership after `ensureNode`. -/
theorem mem_accIds_ensureNode (x j : String) (acc : List NodeAcc) :
    x ∈ accIds (ensureNode j acc) ↔ x ∈ accIds acc ∨ x = j := by
  rw [accIds_ensureNode]
  by_cases hj : j ∈ accIds acc
  · rw [if_pos hj]
    constructor
    · exact Or.inl
    · rintro (h | rfl)
      · exact h
      · exact hj
  · rw [if_neg hj]
    simp

/-- Every derived strength lies in the unit interval. -/
theorem confOK_confidenceToNumber (c : String) :
    0 ≤ confidenceToNumber c ∧ confidenceToNumber c ≤ 1 := by
  unfold confidenceToNumber
  dsimp only
  split_ifs <;> norm_num

/-- Bumping preserves the strength bounds. -/
theorem confOK_bumpDegree (k : String) (acc : List NodeAcc)
    (h : ∀ n ∈ acc, confOK n) : ∀ n ∈ bumpDegree k acc, confOK n := by
  intro n hn
  unfold bumpDegree at hn
  rw [List.mem_map] at hn
  obtain ⟨m, hm, rfl⟩ := hn
  split
  · exact h m hm
  · exact h m hm

/-- Pushing a bounded strength preserves the strength bounds. -/
theorem confOK_pushConfidence (k : String) (q : ℚ) (acc : List NodeAcc)
    (hq : 0 ≤ q ∧ q ≤ 1) (h : ∀ n ∈ acc, confOK n) :
    ∀ n ∈ pushConfidence k q acc, confOK n := by
  intro n hn
  unfold pushConfidence at hn
  rw [List.mem_map] at hn
  obtain ⟨m, hm, rfl⟩ := hn
  split
  · intro x hx
    rw [List.mem_append] at hx
    rcases hx with hx | hx
    · exact h m hm x hx
    · rw [List.mem_singleton] at hx
      subst hx
      exact hq
  · exact h m hm

/-- `ensureNode` preserves the strength bounds (new records are empty). -/
theorem confOK_ensureNode (j : String) (acc : List NodeAcc)
    (h : ∀ n ∈ acc, confOK n) : ∀ n ∈ ensureNode j acc, confOK n := by
  unfold ensureNode
  split
  · exact h
  · intro n hn
    rw [List.mem_append] at hn
    rcases hn with hn | hn
    · exact h n hn
    · rw [List.mem_singleton] at hn
      subst hn
      intro x hx
      simp at hx

/-- One edge step only adds ids through the two `ensureNode` calls. -/
theorem accIds_stepEdge (acc : List NodeAcc) (e : CsvEdge) :
    accIds (stepEdge acc e) = accIds (ensureNode e.target (ensureNode e.source acc)) := by
  unfold stepEdge
  dsimp only
  rw [accIds_pushConfidence, accIds_pushConfidence, accIds_bumpDegree, accIds_bumpDegree]

/-- One edge step preserves distinctness of the ids. -/
theorem nodup_accIds_stepEdge (acc : List NodeAcc) (e : CsvEdge)
    (h : (accIds acc).Nodup) : (accIds (stepEdge acc e)).Nodup := by
  rw [accIds_stepEdge]
  exact nodup_accIds_ensureNode _ _ (nodup_accIds_ensureNode _ _ h)

/-- One edge step adds exactly the two endpoints to the id set. -/
theorem mem_accIds_stepEdge (x : String) (acc : List NodeAcc) (e : CsvEdge) :
    x ∈ accIds (stepEdge acc e) ↔ x ∈ accIds acc ∨ x = e.source ∨ x = e.target := by
  rw [accIds_stepEdge, mem_accIds_ensureNode, mem_accIds_ensureNode]
  tauto

/-- One edge step adds exactly 2 to the degree sum (also for
self-loops, which hit the same record twice). -/
theorem degSum_stepEdge (acc : List NodeAcc) (e : CsvEdge)
    (h : (accIds acc).Nodup) : degSum (stepEdge acc e) = degSum acc + 2 := by
  unfold stepEdge
  dsimp only
  rw [degSum_pushConfidence, degSum_pushConfidence, degSum_bumpDegree,
    accIds_bumpDegree, degSum_bumpDegree, degSum_ensureNode, degSum_ensureNode]
  have hnodup : (accIds (ensureNode e.target (ensureNode e.source acc))).Nodup :=
    nodup_accIds_ensureNode _ _ (nodup_accIds_ensureNode _ _ h)
  have hs : e.source ∈ accIds (ensureNode e.target (ensureNode e.source acc)) := by
    rw [mem_accIds_ensureNode]
    left
    rw [mem_accIds_ensureNode]
    right
    rfl
  have ht : e.target ∈ accIds (ensureNode e.target (ensureNode e.source acc)) := by
    rw [mem_accIds_ensureNode]
    right
    rfl
  rw [countP_beq_eq_count, countP_beq_eq_count, List.count_eq_one_of_mem hnodup hs,
    List.count_eq_one_of_mem hnodup ht]

/-- One edge step preserves the strength bounds. -/
theorem confOK_stepEdge (acc : List NodeAcc) (e : CsvEdge)
    (h : ∀ n ∈ acc, confOK n) : ∀ n ∈ stepEdge acc e, confOK n := by
  unfold stepEdge
  dsimp only
  exact confOK_pushConfidence _ _ _ (confOK_confidenceToNumber _)
    (confOK_pushConfidence _ _ _ (confOK_confidenceToNumber _)
      (confOK_bumpDegree _ _ (confOK_bumpDegree _ _
        (confOK_ensureNode _ _ (confOK_ensureNode _ _ h)))))

/-- The fold invariants of the accumulation: distinct ids, degree sum
2 per edge, ids = seen endpoints, strengths bounded. -/
theorem buildAcc_fold_invariants (edges : List CsvEdge) :
    ∀ acc : List NodeAcc, (accIds acc).Nodup → (∀ n ∈ acc, confOK n) →
      (accIds (edges.foldl stepEdge acc)).Nodup ∧
      degSum (edges.foldl stepEdge acc) = degSum acc + 2 * edges.length ∧
      (∀ x, x ∈ accIds (edges.foldl stepEdge acc) ↔ x ∈ accIds acc ∨ x ∈ endpoints edges) ∧
      (∀ n ∈ edges.foldl stepEdge acc, confOK n) := by
  induction edges with
  | nil =>
    intro acc h1 h2
    refine ⟨h1, by simp [degSum], ?_, h2⟩
    intro x
    simp [endpoints]
  | cons e t ih =>
    intro acc h1 h2
    simp only [List.foldl_cons]
    obtain ⟨a1, a2, a3, a4⟩ :=
      ih (stepEdge acc e) (nodup_accIds_stepEdge acc e h1) (confOK_stepEdge acc e h2)
    refine ⟨a1, ?_, ?_, a4⟩
    · rw [a2, degSum_stepEdge acc e h1, List.length_cons]
      ring
    · intro x
      rw [a3 x, mem_accIds_stepEdge]
      simp only [endpoints, List.mem_cons]
      tauto

/-- The running maximum never drops below its initial value. -/
theorem foldl_max_init_le (l : List NodeAcc) (a : Nat) :
    a ≤ l.foldl (fun m n => max m n.degree) a := by
  induction l generalizing a with
  | nil => exact Nat.le_refl a
  | cons n t ih =>
    exact Nat.le_trans (Nat.le_max_left a n.degree) (ih (max a n.degree))

/-- Every member degree is below the running maximum. -/
theorem mem_le_foldl_max (l : List NodeAcc) (a : Nat) (n : NodeAcc) (h : n ∈ l) :
    n.degree ≤ l.foldl (fun m k => max m k.degree) a := by
  induction l generalizing a with
  | nil => cases h
  | cons m t ih =>
    rw [List.mem_cons] at h
    rcases h with rfl | h
    · exact Nat.le_trans (Nat.le_max_right a n.degree) (foldl_max_init_le t _)
    · exact ih _ h

/-- Every accumulated degree is at most `maxDegree`. -/
theorem degree_le_maxDegree (acc : List NodeAcc) (n : NodeAcc) (h : n ∈ acc) :
    n.degree ≤ maxDegree acc := mem_le_foldl_max acc 1 n h

/-- `maxDegree` is floored at 1. -/
theorem one_le_maxDegree (acc : List NodeAcc) : 1 ≤ maxDegree acc :=
  foldl_max_init_le acc 1

/-- The mean of unit-interval values lies in the unit interval. -/
theorem mean_bounds (l : List ℚ) (h : ∀ q ∈ l, 0 ≤ q ∧ q ≤ 1) (hne : l.length ≠ 0) :
    0 ≤ l.sum / (l.length : ℚ) ∧ l.sum / (l.length : ℚ) ≤ 1 := by
  have hpos : (0 : ℚ) < (l.length : ℚ) := by
    have : 0 < l.length := Nat.pos_of_ne_zero hne
    exact_mod_cast this
  constructor
  · apply div_nonneg _ (le_of_lt hpos)
    exact List.sum_nonneg fun q hq => (h q hq).1
  · rw [div_le_one hpos]
    calc l.sum ≤ l.length • (1 : ℚ) := List.sum_le_card_nsmul l 1 fun q hq => (h q hq).2
    _ = (l.length : ℚ) := by simp

/-- C6: the built graph has one node per distinct endpoint (each endpoint
appears exactly once among the node ids), the accumulated degrees sum to
2 times the number of accepted edges, there is one link per accepted
record, and every importance and confidence lies in [0, 1]. -/
theorem buildGraph_invariants (edges : List CsvEdge) :
    ((buildGraph edges).1.map GraphNode.id).Nodup ∧
    (∀ x, x ∈ (buildGraph edges).1.map GraphNode.id ↔ x ∈ endpoints edges) ∧
    (buildGraph edges).1.length = (endpoints edges).toFinset.card ∧
    degSum (buildAcc edges) = 2 * edges.length ∧
    (buildGraph edges).2.length = edges.length ∧
    (∀ n ∈ (buildGraph edges).1,
      0 ≤ n.importance ∧ n.importance ≤ 1 ∧ 0 ≤ n.confidence ∧ n.confidence ≤ 1) := by
  obtain ⟨a1, a2, a3, a4⟩ := buildAcc_fold_invariants edges [] (by simp [accIds]) (by simp)
  have hids : (buildGraph edges).1.map GraphNode.id = accIds (buildAcc edges) := by
    unfold buildGraph accIds
    dsimp only
    rw [List.map_map]
    rfl
  have hmem : ∀ x, x ∈ accIds (buildAcc edges) ↔ x ∈ endpoints edges := by
    intro x
    have h := a3 x
    simp only [accIds, List.map_nil, List.not_mem_nil, false_or] at h
    exact h
  refine ⟨?_, ?_, ?_, ?_, ?_, ?_⟩
  · rw [hids]
    exact a1
  · intro x
    rw [hids]
    exact hmem x
  · have hlen : (buildGraph edges).1.length = (accIds (buildAcc edges)).length := by
      rw [← hids, List.length_map]
    rw [hlen]
    have hfin : (accIds (buildAcc edges)).toFinset = (endpoints edges).toFinset := by
      apply Finset.ext
      intro x
      rw [List.mem_toFinset, List.mem_toFinset]
      exact hmem x
    have a1' : (accIds (buildAcc edges)).Nodup := a1
    rw [← List.toFinset_card_of_nodup a1', hfin]
  · calc degSum (buildAcc edges) = degSum [] + 2 * edges.length := a2
    _ = 2 * edges.length := by simp [degSum]
  · unfold buildGraph
    dsimp only
    rw [List.length_map]
  · intro n hn
    unfold buildGraph at hn
    dsimp only at hn
    rw [List.mem_map] at hn
    obtain ⟨m, hm, rfl⟩ := hn
    have a4' : ∀ n ∈ buildAcc edges, confOK n := a4
    unfold mkNode
    dsimp only
    have hdeg : m.degree ≤ maxDegree (buildAcc edges) := degree_le_maxDegree _ m hm
    have hone : 1 ≤ maxDegree (buildAcc edges) := one_le_maxDegree _
    have hposQ : (0 : ℚ) < (maxDegree (buildAcc edges) : ℚ) := by exact_mod_cast hone
    refine ⟨?_, ?_, ?_, ?_⟩
    · positivity
    · rw [div_le_one hposQ]
      exact_mod_cast hdeg
    · split
      · exact (mean_bounds m.confidences (a4' m hm) (by assumption)).1
      · norm_num
    · split
      · exact (mean_bounds m.confidences (a4' m hm) (by assumption)).2
      · norm_num

/-- C6 witness: the invariants evaluated on a one-edge graph. -/
theorem buildGraph_invariants_witness :
    degSum (buildAcc [⟨"a", "b", "boosts", "High", "note"⟩]) = 2 ∧
    ("a" ∈ (buildGraph [⟨"a", "b", "boosts", "High", "note"⟩]).1.map GraphNode.id) ∧
    (buildGraph [⟨"a", "b", "boosts", "High", "note"⟩]).2.length = 1 ∧
    0 ≤ ((buildGraph [⟨"a", "b", "boosts", "High", "note"⟩]).1.get
      ⟨0, by decide⟩).importance := by
  refine ⟨?_, ?_, ?_, ?_⟩
  · exact ((buildGraph_invariants [⟨"a", "b", "boosts", "High", "note"⟩]).2.2.2.1).trans
      (by decide)
  · exact ((buildGraph_invariants [⟨"a", "b", "boosts", "High", "note"⟩]).2.1 "a").mpr
      (by decide)
  · exact ((buildGraph_invariants [⟨"a", "b", "boosts", "High", "note"⟩]).2.2.2.2.1).trans
      (by decide)
  · exact ((buildGraph_invariants [⟨"a", "b", "boosts", "High", "note"⟩]).2.2.2.2.2 _
      (List.get_mem _ 0 (by decide))).1

/-- `replace(/\s+/g, "_")`: every whitespace run becomes one
underscore; the flag records whether the previous character was part of a
run already replaced. -/
def squashWsAux : Bool → List Char → List Char
  | _, [] => []
  | prevWs, c :: cs =>
    if wsChar c then
      if prevWs then squashWsAux true cs else '_' :: squashWsAux true cs
    else c :: squashWsAux false cs

/-- `normalizeId` from the graph page component: lowercase, then replace
every whitespace run with an underscore. -/
def normalizeId (s : String) : String :=
  String.mk (squashWsAux false (s.data.map lowerChar))

/-- Is a node matched by the snapshot name lists? Its normalised id or
normalised label must equal some normalised name of the union list. -/
def isHighlighted (defNames highRiskNames : List String) (n : GraphNode) : Bool :=
  let targets := (defNames ++ highRiskNames).map normalizeId
  targets.contains (normalizeId n.id) || targets.contains (normalizeId n.label)

/-- The highlight set computed by the graph page effect: empty when
there are no nodes, else the ids of the matched nodes. -/
def computeHighlights (nodes : List GraphNode) (defNames highRiskNames : List String) :
    List String :=
  if nodes.length = 0 then []
  else (nodes.filter (isHighlighted defNames highRiskNames)).map GraphNode.id

/-- C9: a node is highlighted iff its normalised id or normalised label
equals the normalisation of some name in the union of the two snapshot
lists; no match yields the empty highlight set, not an error; and
normalisation is case- and whitespace-insensitive, so "Vitamin D" matches
the node id `vitamin_d`. -/
theorem highlight_spec :
    (∀ defNames highRiskNames n, isHighlighted defNames highRiskNames n = true ↔
      ∃ name ∈ defNames ++ highRiskNames,
        normalizeId name = normalizeId n.id ∨ normalizeId name = normalizeId n.label) ∧
    (∀ nodes defNames highRiskNames x,
      x ∈ computeHighlights nodes defNames highRiskNames ↔
        ∃ n ∈ nodes, n.id = x ∧ isHighlighted defNames highRiskNames n = true) ∧
    (∀ nodes defNames highRiskNames,
      (∀ n ∈ nodes, isHighlighted defNames highRiskNames n = false) →
      computeHighlights nodes defNames highRiskNames = []) ∧
    normalizeId "Vitamin D" = "vitamin_d" := by
  have h1 : ∀ defNames highRiskNames n, isHighlighted defNames highRiskNames n = true ↔
      ∃ name ∈ defNames ++ highRiskNames,
        normalizeId name = normalizeId n.id ∨ normalizeId name = normalizeId n.label := by
    intro defNames highRiskNames n
    simp [isHighlighted, List.mem_map]
    constructor
    · rintro ((⟨a, ha, he⟩ | ⟨a, ha, he⟩) | (⟨a, ha, he⟩ | ⟨a, ha, he⟩))
      · exact ⟨a, Or.inl ha, Or.inl he⟩
      · exact ⟨a, Or.inr ha, Or.inl he⟩
      · exact ⟨a, Or.inl ha, Or.inr he⟩
      · exact ⟨a, Or.inr ha, Or.inr he⟩
    · rintro ⟨a, ha | ha, he | he⟩
      · exact Or.inl (Or.inl ⟨a, ha, he⟩)
      · exact Or.inr (Or.inl ⟨a, ha, he⟩)
      · exact Or.inl (Or.inr ⟨a, ha, he⟩)
      · exact Or.inr (Or.inr ⟨a, ha, he⟩)
  refine ⟨h1, ?_, ?_, by decide⟩
  · intro nodes defNames highRiskNames x
    unfold computeHighlights
    by_cases hlen : nodes.length = 0
    · rw [if_pos hlen]
      rw [List.length_eq_zero] at hlen
      subst hlen
      simp
    · rw [if_neg hlen]
      simp [List.mem_map, List.mem_filter]
      constructor
      · rintro ⟨n, ⟨hn, hp⟩, rfl⟩
        exact ⟨n, hn, rfl, hp⟩
      · rintro ⟨n, hn, rfl, hp⟩
        exact ⟨n, ⟨hn, hp⟩, rfl⟩
  · intro nodes defNames highRiskNames h
    unfold computeHighlights
    by_cases hlen : nodes.length = 0
    · rw [if_pos hlen]
    · rw [if_neg hlen]
      rw [List.filter_eq_nil_iff.mpr ?_]
      · rfl
      · intro n hn
        simp [h n hn]

/-- C9 witness: the name "Vitamin D" highlights the `vitamin_d` node. -/
theorem highlight_spec_witness :
    isHighlighted ["Vitamin D"] []
      ⟨"vitamin_d", "vitamin d", "vitamin", "fat-soluble", 1, 0.5, 0.9⟩ = true ∧
    normalizeId "Vitamin D" = "vitamin_d" :=
  ⟨(highlight_spec.1 ["Vitamin D"] []
      ⟨"vitamin_d", "vitamin d", "vitamin", "fat-soluble", 1, 0.5, 0.9⟩).mpr
    ⟨"Vitamin D", by simp, Or.inl (by decide)⟩,
   highlight_spec.2.2.2⟩

end Hemovita
